import Mathlib

/-!
Shallow embedding of the templated-pipeline resolution engine of this
repository (`dvc/parsing/context.py`, `dvc/parsing/interpolate.py`,
`dvc/parsing/__init__.py`) together with theorems settling the frozen
claims about it.

Python runtime values are modelled by a single inductive type `PyV` that
covers both raw (unconverted) scalars / lists / dicts and the namespace
tree nodes (`Value`, `CtxList`, `CtxDict`, and the interpolation `String`
node), mirroring the dynamic typing of the source.  Machine floats and
byte strings (members of `PRIMITIVES` in the source) are outside the
claims and are not modelled.  Python dicts are modelled as ordered
association lists with distinct string keys (the source silently drops
non-string keys on assignment; documents carry only string keys).
-/

namespace Dvc

/-! ## Small Python-string helpers (modelled on `str` methods used by the source) -/

/-- Python `s.split(".")`: splitting on a single-character separator.  The
source performs iterated `key.split(sep=".", maxsplit=1)` while walking the
path; splitting into all segments at once is the same decomposition. -/
def splitDotAux : List Char → List Char → List String
  | [], cur => [String.mk cur.reverse]
  | c :: rest, cur =>
    if c = '.' then String.mk cur.reverse :: splitDotAux rest []
    else splitDotAux rest (c :: cur)

def splitDot (s : String) : List String :=
  splitDotAux s.toList []

/-- Python `s.strip()` (whitespace on both ends). -/
def pyStrip (s : String) : String :=
  String.mk (((s.toList.dropWhile Char.isWhitespace).reverse.dropWhile
    Char.isWhitespace).reverse)

/-- Digits of a Python `int()` literal. -/
def digitsToNat? : List Char → Option Nat
  | [] => none
  | cs => go cs 0
where
  go : List Char → Nat → Option Nat
    | [], acc => some acc
    | c :: rest, acc =>
      if c.isDigit then go rest (acc * 10 + (c.toNat - '0'.toNat))
      else none

/-- Python `int(s)` on an already-stripped string (sign plus digits; the
underscore digit grouping Python also accepts is not modelled). -/
def pyInt? (s : String) : Option Int :=
  match s.toList with
  | '-' :: ds => (digitsToNat? ds).map (fun n => -(n : Int))
  | '+' :: ds => (digitsToNat? ds).map (fun n => (n : Int))
  | ds => (digitsToNat? ds).map (fun n => (n : Int))

/-- Python slice `s[i:j]` in character positions. -/
def strSlice (s : String) (i j : Nat) : String :=
  String.mk ((s.toList.drop i).take (j - i))

/-- Python slice `s[i:]`. -/
def strFrom (s : String) (i : Nat) : String :=
  String.mk (s.toList.drop i)

/-- Python `s.replace(ESC_BRACE_OPEN, BRACE_OPEN)` specialized to the one
replacement the source performs: every backslash-dollar-brace triple is
rewritten, non-overlapping and left to right, to dollar-brace. -/
def unescapeChars : List Char → List Char
  | [] => []
  | [c] => [c]
  | [c1, c2] => [c1, c2]
  | c1 :: c2 :: c3 :: rest =>
    if c1 = '\\' ∧ c2 = '$' ∧ c3 = '\x7b' then
      '$' :: '\x7b' :: unescapeChars rest
    else c1 :: unescapeChars (c2 :: c3 :: rest)

def pyUnescape (s : String) : String :=
  String.mk (unescapeChars s.toList)

/-! ## Association-list helpers for Python dicts -/

def alookup {α : Type} : List (String × α) → String → Option α
  | [], _ => none
  | (k', v) :: rest, k => if k' = k then some v else alookup rest k

/-- Python dict assignment `d[k] = v`: an existing key keeps its position,
a new key is appended. -/
def aset {α : Type} : List (String × α) → String → α → List (String × α)
  | [], k, v => [(k, v)]
  | (k', w) :: rest, k, v =>
    if k' = k then (k, v) :: rest else (k', w) :: aset rest k v

/-- Python `d.pop(k, default)` on the entry list (keys are distinct). -/
def adel {α : Type} : List (String × α) → String → List (String × α)
  | [], _ => []
  | (k', v) :: rest, k => if k' = k then rest else (k', v) :: adel rest k

def ahas {α : Type} (xs : List (String × α)) (k : String) : Bool :=
  (alookup xs k).isSome

/-- Insert into a Python `set` modelled as a duplicate-free list. -/
def insertIfAbsent (xs : List String) (x : String) : List String :=
  if x ∈ xs then xs else xs ++ [x]

/-! ## Data model: `Meta`, primitives and the unified value type `PyV` -/

/-- `Meta` from `context.py`: provenance of a node (source file plus dotted
path segments). -/
structure Meta where
  source : Option String := none
  dpaths : List String := []
deriving DecidableEq, Repr

/-- `Meta.update_path`: derive a child's meta by appending one segment
(the source stringifies integer list indices, hence the `String` segment). -/
def Meta.update_path (m : Meta) (p : String) : Meta :=
  { m with dpaths := m.dpaths ++ [p] }

/-- `Meta.path`: segments joined by a dot. -/
def Meta.path (m : Meta) : String :=
  String.intercalate "." m.dpaths

/-- `_default_meta` from `context.py`. -/
def _default_meta : Meta := { source := none }

/-- Scalars covered by the claims (`PRIMITIVES` in the source also lists
`float` and `bytes`, which no claim exercises). -/
inductive Prim where
  | null : Prim
  | bool (b : Bool) : Prim
  | int (n : Int) : Prim
  | str (s : String) : Prim
deriving DecidableEq, Repr

/-- Python `str(p)`. -/
def Prim.pyStr : Prim → String
  | .null => "None"
  | .bool true => "True"
  | .bool false => "False"
  | .int n => toString n
  | .str s => s

/-- Python `repr(p)` (quote-escaping inside string reprs is not modelled;
no claim prints strings containing quotes). -/
def Prim.pyRepr : Prim → String
  | .str s => "'" ++ s ++ "'"
  | p => p.pyStr

/-- The dynamically-typed Python values the engine passes around: raw
primitives / lists / dicts, and the `Node` subclasses `Value`, `CtxList`,
`CtxDict` and the interpolation `String` node of `interpolate.py`. -/
inductive PyV where
  | prim (p : Prim) : PyV
  | list (xs : List PyV) : PyV
  | dict (xs : List (String × PyV)) : PyV
  | value (p : Prim) (meta : Meta) : PyV
  | ctxList (data : List PyV) (meta : Meta) : PyV
  | ctxDict (data : List (String × PyV)) (meta : Meta) : PyV
  | strN (template : String) (val : String) : PyV
deriving Repr

/-- Python `isinstance(v, Node)`. -/
def PyV.isNode : PyV → Bool
  | .value _ _ | .ctxList _ _ | .ctxDict _ _ | .strN _ _ => true
  | _ => false

/-- Python `isinstance(v, Mapping)`: raw dicts and `CtxDict` containers. -/
def PyV.isMapping : PyV → Bool
  | .dict _ | .ctxDict _ _ => true
  | _ => false

/-! ## Errors raised by the engine -/

/-- The exceptions the source raises, with the offending key or path (the
full interpolated message strings of the source are not reproduced). -/
inductive PErr where
  | notFound (index : String) : PErr
  | attrErr (what : String) : PErr
  | intCast (lit : String) : PErr
  | mergeConflict (key : String) : PErr
  | definitionErr (msg : String) : PErr
  | typeErr (msg : String) : PErr
deriving DecidableEq, Repr

end Dvc

namespace Dvc

/-! ## Namespace-tree construction (`Container._convert` and the container
constructors of `context.py`) -/

mutual

/-- `Container._convert` with the child's meta already derived, together
with the recursive container constructors `CtxList.__init__` /
`CtxDict.__init__`: a primitive becomes a `Value`, an existing `Node`
passes through unchanged, a raw list/dict is wrapped recursively as the
matching container kind. -/
def convertWith (childMeta : Meta) : PyV → PyV
  | .prim p => .value p childMeta
  | .list xs => .ctxList (convertListItems childMeta 0 xs) childMeta
  | .dict xs => .ctxDict (convertDictItems childMeta xs) childMeta
  | n => n

def convertListItems (meta : Meta) (i : Nat) : List PyV → List PyV
  | [] => []
  | x :: xs =>
    convertWith (meta.update_path (toString i)) x ::
      convertListItems meta (i + 1) xs

def convertDictItems (meta : Meta) : List (String × PyV) → List (String × PyV)
  | [] => []
  | (k, v) :: xs =>
    (k, convertWith (meta.update_path k) v) :: convertDictItems meta xs

end

/-- `Container._convert(self, key, value)`: derives the child meta by
appending `key` to the parent's dotted path. -/
def Container._convert (selfMeta : Meta) (key : String) (v : PyV) : PyV :=
  convertWith (selfMeta.update_path key) v

/-! ## Python `str` / `repr` of values and nodes -/

mutual

/-- Python `repr` as the source prints it: `Value.__repr__` is the repr of
the boxed scalar, `Container.__repr__` is the repr of its `data`. -/
def PyV.pyRepr : PyV → String
  | .prim p => p.pyRepr
  | .value p _ => p.pyRepr
  | .list xs => "[" ++ String.intercalate ", " (reprItems xs) ++ "]"
  | .ctxList xs _ => "[" ++ String.intercalate ", " (reprItems xs) ++ "]"
  | .dict xs => "\x7b" ++ String.intercalate ", " (reprEntries xs) ++ "\x7d"
  | .ctxDict xs _ =>
    "\x7b" ++ String.intercalate ", " (reprEntries xs) ++ "\x7d"
  | .strN _ v => "'" ++ v ++ "'"

def reprItems : List PyV → List String
  | [] => []
  | x :: xs => x.pyRepr :: reprItems xs

def reprEntries : List (String × PyV) → List String
  | [] => []
  | (k, v) :: xs => ("'" ++ k ++ "': " ++ v.pyRepr) :: reprEntries xs

end

/-- Python `str`: `Value.__str__` prints the boxed scalar, the containers
fall back to `__repr__`; the `String` interpolation node prints its
resolved value. -/
def PyV.pyStr : PyV → String
  | .prim p => p.pyStr
  | .value p _ => p.pyStr
  | .strN _ v => v
  | v => v.pyRepr

/-! ## `Context` (a `CtxDict` promoted to root, with tracking state) -/

/-- `Context.__init__`: the node data, root meta, the `_track` flag and the
`_tracked_data` accumulator (a mapping source file to the set of dotted
paths read, modelled as insertion-ordered duplicate-free lists). -/
structure Context where
  data : List (String × PyV) := []
  meta : Meta := {}
  trackFlag : Bool := false
  trackedData : List (String × List String) := []
deriving Repr

/-- Insert one dotted path into the `_tracked_data` accumulator
(`defaultdict(set)` in the source). -/
def trackedInsert : List (String × List String) → String → String →
    List (String × List String)
  | [], src, p => [(src, [p])]
  | (s, ps) :: rest, src, p =>
    if s = src then (s, insertIfAbsent ps p) :: rest
    else (s, ps) :: trackedInsert rest src p

/-- `Context.__setitem__` (via `CtxDict.__setitem__`): convert against the
root meta and assign. -/
def Context.setItem (ctx : Context) (key : String) (v : PyV) : Context :=
  { ctx with data := aset ctx.data key (Container._convert ctx.meta key v) }

/-- `Context.load_from(tree, file)`: wrap the mapping the loader returns as
a `Context` whose meta records the file as source.  The loader capability
(`LOADERS` dispatch by extension) is opaque here: the caller passes the
parsed mapping. -/
def Context.load_from (file : String) (mapping : List (String × PyV)) :
    Context :=
  let meta : Meta := { source := some file }
  { data := convertDictItems meta mapping, meta := meta }

/-- `Context.clone(ctx)`: `cls(deepcopy(ctx.data))`.  A deep copy of the
node entries is re-inserted through `__setitem__`/`_convert`, so existing
nodes pass through unchanged (a fresh `Context` has default root meta and
fresh empty tracking state). -/
def Context.clone (ctx : Context) : Context :=
  { data := (ctx.data).map
      (fun kv => (kv.1, Container._convert ({} : Meta) kv.1 kv.2)) }

/-- `Node.get_sources`: a `Value` and a `CtxList` report their own meta
(source, dotted path); a plain `Container` (`CtxDict`) reports nothing.
Raw values and the `String` node have no `get_sources` (the `Node` base
raises `NotImplementedError`). -/
def PyV.get_sources : PyV → Except PErr (List (Option String × String))
  | .value _ m => .ok [(m.source, m.path)]
  | .ctxList _ m => .ok [(m.source, m.path)]
  | .ctxDict _ _ => .ok []
  | _ => .error (.attrErr "get_sources")

/-- The accumulation loop of `Context._track_data`: every reported source
that is truthy (not `None`, not the empty string) receives the reported
dotted path. -/
def trackSources : List (String × List String) →
    List (Option String × String) → List (String × List String)
  | acc, [] => acc
  | acc, (none, _) :: rest => trackSources acc rest
  | acc, (some s, p) :: rest =>
    if s = "" then trackSources acc rest
    else trackSources (trackedInsert acc s p) rest

/-- `Context._track_data`: a no-op unless `_track` is active; otherwise the
selected node's `get_sources` entries are folded into the accumulator. -/
def Context._track_data (ctx : Context) (node : PyV) :
    Except PErr Context :=
  if ctx.trackFlag then
    match node.get_sources with
    | .error e => .error e
    | .ok srcs =>
      .ok { ctx with trackedData := trackSources ctx.trackedData srcs }
  else
    .ok ctx

/-! ## Dotted-path selection -/

/-- `Container.select` unrolled over the dot-separated segments: each
segment is stripped, key-transformed (`int` cast for `CtxList`), and looked
up; a missing segment raises the not-found error; descending into a
non-container raises (Python `AttributeError`). -/
def PyV.selectSegs : PyV → List String → Except PErr PyV
  | v, [] => .ok v
  | .ctxDict data _, seg :: rest =>
    let index := pyStrip seg
    match alookup data index with
    | none => .error (.notFound index)
    | some d => d.selectSegs rest
  | .ctxList data _, seg :: rest =>
    let index := pyStrip seg
    match pyInt? index with
    | none => .error (.intCast index)
    | some i =>
      match pyIndexGet data i with
      | none => .error (.notFound index)
      | some d => d.selectSegs rest
  | _, _ :: _ => .error (.attrErr "select")
where
  /-- Python list indexing, negative indices counting from the end. -/
  pyIndexGet (xs : List PyV) (i : Int) : Option PyV :=
    if 0 ≤ i then xs.get? i.toNat
    else if (-i).toNat ≤ xs.length then xs.get? (xs.length - (-i).toNat)
    else none

/-- `Context._unwrap`: only a `Value` is unwrapped to its bare scalar. -/
def Context._unwrap : PyV → PyV
  | .value p _ => .prim p
  | v => v

/-- `Context.select(key, unwrap)`: select in the root container, feed the
selected node to `_track_data`, then optionally unwrap. -/
def Context.select (ctx : Context) (key : String) (unwrap : Bool) :
    Except PErr (PyV × Context) :=
  match (PyV.ctxDict ctx.data ctx.meta).selectSegs (splitDot key) with
  | .error e => .error e
  | .ok node =>
    match ctx._track_data node with
    | .error e => .error e
    | .ok ctx' =>
      .ok ((if unwrap then Context._unwrap node else node), ctx')

/-- `Context.track()`: a `@contextmanager` that sets the `_track` flag,
yields to the body, and clears the flag after a *normal* return.  The
source has no `try`/`finally`, so when the body raises, the generator is
aborted at the `yield` and the clearing assignment never runs; the mutated
context survives with the flag still set. -/
def Context.track {α : Type} (ctx : Context)
    (body : Context → Except PErr α × Context) :
    Except PErr α × Context :=
  let (r, ctx') := body { ctx with trackFlag := true }
  match r with
  | .ok a => (.ok a, { ctx' with trackFlag := false })
  | .error e => (.error e, ctx')

end Dvc

namespace Dvc

/-! ## Grammar/Tokenizer (`KEYCRE` and `_get_matches` of `interpolate.py`) -/

/-- One regex match of `KEYCRE`: the character span, the whole matched text
(`group(0)`) and the inner expression (the third group, extracted by
`_resolve_value` via `match.groups()`). -/
structure IMatch where
  start : Nat
  stop : Nat
  matched : String
  inner : String
deriving DecidableEq, Repr

/-- The character class of the inner expression in `KEYCRE`: word
characters, dot, underscore, space, backslash, slash, hyphen (the Unicode
word characters Python's `\w` also admits are outside the claims).  Note
that no bracket is in the class. -/
def isInnerChar (c : Char) : Bool :=
  c.isAlphanum || c = '_' || c = '.' || c = ' ' || c = '\\' || c = '/' ||
    c = '-'

/-- Attempt to match the single-brace alternative of `KEYCRE` right after a
dollar sign: an opening brace, a run of inner characters, a closing brace.
Returns the inner text and the number of characters consumed after the
dollar.  Because the inner class contains no brace, the lazy `*?` of the
regex takes exactly the maximal inner run followed by the closing brace. -/
def trySingleBrace : List Char → Option (String × Nat)
  | '\x7b' :: rest =>
    let inn := rest.takeWhile isInnerChar
    match rest.dropWhile isInnerChar with
    | '\x7d' :: _ => some (String.mk inn, 1 + inn.length + 1)
    | _ => none
  | _ => none

/-- Attempt to match `KEYCRE` right after a dollar sign: the double-brace
alternative is tried first (as in the regex alternation), falling back to
the single-brace alternative. -/
def tryBraces (cs : List Char) : Option (String × Nat) :=
  match cs with
  | '\x7b' :: '\x7b' :: rest =>
    let inn := rest.takeWhile isInnerChar
    match rest.dropWhile isInnerChar with
    | '\x7d' :: '\x7d' :: _ => some (String.mk inn, 2 + inn.length + 2)
    | _ => trySingleBrace cs
  | _ => trySingleBrace cs

/-- `KEYCRE.finditer`: scan the string left to right; at each unescaped
dollar sign (negative lookbehind for a backslash) try to match the brace
expression.  `finditer` resumes scanning after each match; since the
dollar sign is not an inner character, no further dollar sign occurs
strictly inside a matched span, so advancing one character at a time finds
exactly the same non-overlapping matches. -/
def scanTokens : List Char → Option Char → Nat → List IMatch
  | [], _, _ => []
  | c :: rest, prev, pos =>
    if c = '$' ∧ prev ≠ some '\\' then
      match tryBraces rest with
      | some (inn, len) =>
        { start := pos, stop := pos + 1 + len,
          matched := String.mk ('$' :: rest.take len), inner := inn } ::
          scanTokens rest (some c) (pos + 1)
      | none => scanTokens rest (some c) (pos + 1)
    else
      scanTokens rest (some c) (pos + 1)

/-- `_get_matches(template)`. -/
def _get_matches (template : String) : List IMatch :=
  scanTokens template.toList none 0

/-- The "exact string" predicate: a single match spanning the whole string.
The body of `_is_exact_string` (imported by `context.py`) is not under
`src/`; this mirrors the identical test written out in `_resolve_str`:
`len(matches) == 1 and src == matches[0].group(0)`. -/
def _is_exact_string (s : String) (ms : List IMatch) : Bool :=
  match ms with
  | [m] => s == m.matched
  | _ => false

/-! ## String interpolation inside `Context` (`context.py`) -/

/-- `ESC_BRACE_OPEN` / `BRACE_OPEN` from `context.py`. -/
def ESC_BRACE_OPEN : String := "\\$\x7b"

def BRACE_OPEN : String := "$\x7b"

/-- The loop of `Context._interpolate_string`: walk the matches keeping the
current copy position `index` and the output buffer `buf`; each match
contributes the literal text before it plus `str(self.select(inner))`
(selection tracks, hence the threaded context). -/
def interpGo (s : String) : List IMatch → Nat → String → Context →
    Except PErr (String × Context)
  | [], index, buf, ctx => .ok (buf ++ strFrom s index, ctx)
  | m :: ms, index, buf, ctx =>
    match Context.select ctx m.inner false with
    | .error e => .error e
    | .ok (node, ctx') =>
      interpGo s ms m.stop (buf ++ strSlice s index m.start ++ node.pyStr)
        ctx'

/-- `Context._interpolate_string`. -/
def Context._interpolate_string (ctx : Context) (s : String) :
    Except PErr (String × Context) :=
  interpGo s (_get_matches s) 0 "" ctx

/-- `Context.format_string(s, unwrap)`: an exact string selects the inner
path and returns the node's native value (optionally unwrapped, with no
stringification); otherwise every token is stringified and spliced into
the literal text, and escaped `\$`-brace sequences are unescaped. -/
def Context.format_string (ctx : Context) (s : String) (unwrap : Bool) :
    Except PErr (PyV × Context) :=
  let ms := _get_matches s
  if _is_exact_string s ms then
    match ms with
    | m :: _ => ctx.select m.inner unwrap
    | [] => .error (.attrErr "unreachable")
  else
    match ctx._interpolate_string s with
    | .error e => .error e
    | .ok (s', ctx') =>
      .ok (.prim (.str (pyUnescape s')), ctx')

/-! ## The generic resolver (`interpolate.py`) -/

/-- `_unwrap` from `interpolate.py`: a `Value` or a `String` node yields
its bare value, anything else passes through. -/
def interpolateUnwrap : PyV → PyV
  | .value p _ => .prim p
  | .strN _ v => .prim (.str v)
  | v => v

/-- Modelled from the spec: the `String` node class imported by
`interpolate.py` is not under `src/`.  Per spec section 4.3, for a
non-exact string every token's selected value is stringified and spliced
into the literal text in order and escaped `\$`-brace sequences are
unescaped; the node records the template and that resolved value. -/
def mkStringNode (ctx : Context) (src : String) :
    Except PErr (PyV × Context) :=
  match ctx._interpolate_string src with
  | .error e => .error e
  | .ok (v, ctx') =>
    .ok (.strN src (pyUnescape v), ctx')

/-- `_resolve_str(src, context, unwrap)`: an exact match resolves to the
selected node (`_resolve_value`), otherwise a `String` node is built; the
result is optionally unwrapped. -/
def _resolve_str (ctx : Context) (src : String) (unwrap : Bool) :
    Except PErr (PyV × Context) :=
  let ms := _get_matches src
  let r : Except PErr (PyV × Context) :=
    if _is_exact_string src ms then
      match ms with
      | m :: _ => ctx.select m.inner false
      | [] => .error (.attrErr "unreachable")
    else
      mkStringNode ctx src
  match r with
  | .error e => .error e
  | .ok (v, ctx') =>
    .ok ((if unwrap then interpolateUnwrap v else v), ctx')

mutual

/-- `resolve(src, context, unwrap)` from `interpolate.py`: mappings (raw
dicts and `CtxDict` nodes alike) are rebuilt as plain dicts with each
value resolved in order, raw lists are rebuilt elementwise, strings go
through `_resolve_str`, everything else is returned as-is (a `CtxList`
node is not a Python `list` and falls through). -/
def resolveV (ctx : Context) (unwrap : Bool) :
    PyV → Except PErr (PyV × Context)
  | .dict xs =>
    match resolveEntries ctx unwrap xs with
    | .error e => .error e
    | .ok (ys, ctx') => .ok (.dict ys, ctx')
  | .ctxDict xs _ =>
    match resolveEntries ctx unwrap xs with
    | .error e => .error e
    | .ok (ys, ctx') => .ok (.dict ys, ctx')
  | .list xs =>
    match resolveItems ctx unwrap xs with
    | .error e => .error e
    | .ok (ys, ctx') => .ok (.list ys, ctx')
  | .prim (.str s) => _resolve_str ctx s unwrap
  | v => .ok (v, ctx)

def resolveEntries (ctx : Context) (unwrap : Bool) :
    List (String × PyV) → Except PErr (List (String × PyV) × Context)
  | [] => .ok ([], ctx)
  | (k, v) :: xs =>
    match resolveV ctx unwrap v with
    | .error e => .error e
    | .ok (v', ctx') =>
      match resolveEntries ctx' unwrap xs with
      | .error e => .error e
      | .ok (xs', ctx'') => .ok ((k, v') :: xs', ctx'')

def resolveItems (ctx : Context) (unwrap : Bool) :
    List PyV → Except PErr (List PyV × Context)
  | [] => .ok ([], ctx)
  | v :: xs =>
    match resolveV ctx unwrap v with
    | .error e => .error e
    | .ok (v', ctx') =>
      match resolveItems ctx' unwrap xs with
      | .error e => .error e
      | .ok (xs', ctx'') => .ok (v' :: xs', ctx'')

end

end Dvc

namespace Dvc

/-! ## Recursive merge (`_merge` and `CtxDict.merge_update` of `context.py`) -/

/-- The `data` entries of a mapping value (raw dict or `CtxDict` node). -/
def PyV.entries : PyV → List (String × PyV)
  | .dict xs => xs
  | .ctxDict xs _ => xs
  | _ => []

/-- Rebuild a mapping value around new entries, keeping its kind and (for
a `CtxDict`) its meta — the source merges into the existing object in
place. -/
def PyV.withEntries : PyV → List (String × PyV) → PyV
  | .dict _, ys => .dict ys
  | .ctxDict _ m, ys => .ctxDict ys m
  | v, _ => v

mutual

/-- `_merge(into, update, overwrite)`: for each update entry in order, if
both sides hold a mapping at the key the sub-mappings are merged
recursively; otherwise an existing key is a conflict error unless
`overwrite` is set; a fresh key (or an overwrite) is assigned.  Works
uniformly over raw dicts and `CtxDict` nodes, as `isinstance(.., Mapping)`
does in the source. -/
def _merge (into update : List (String × PyV)) (overwrite : Bool) :
    Except PErr (List (String × PyV)) :=
  match update with
  | [] => .ok into
  | (key, val) :: rest =>
    match mergeOne into key val overwrite with
    | .error e => .error e
    | .ok into' => _merge into' rest overwrite

/-- The body of the `_merge` loop for one update entry: recursion happens
exactly when both the existing value and the update value are mappings;
otherwise an existing key is a conflict unless `overwrite` is set. -/
def mergeOne (into : List (String × PyV)) (key : String) (val : PyV)
    (overwrite : Bool) : Except PErr (List (String × PyV)) :=
  match val with
  | .dict ys =>
    match alookup into key with
    | none => .ok (into ++ [(key, PyV.dict ys)])
    | some w =>
      if w.isMapping then
        match _merge w.entries ys overwrite with
        | .error e => .error e
        | .ok m => .ok (aset into key (w.withEntries m))
      else if overwrite then .ok (aset into key (.dict ys))
      else .error (.mergeConflict key)
  | .ctxDict ys mm =>
    match alookup into key with
    | none => .ok (into ++ [(key, PyV.ctxDict ys mm)])
    | some w =>
      if w.isMapping then
        match _merge w.entries ys overwrite with
        | .error e => .error e
        | .ok m => .ok (aset into key (w.withEntries m))
      else if overwrite then .ok (aset into key (.ctxDict ys mm))
      else .error (.mergeConflict key)
  | v =>
    match alookup into key with
    | none => .ok (into ++ [(key, v)])
    | some _ =>
      if overwrite then .ok (aset into key v)
      else .error (.mergeConflict key)

end

/-- `CtxDict.merge_update(*args, overwrite)`: merge each source in turn
into the context's data.  When the driver merges whole `Context` objects,
iterating a source yields its node entries, hence the entry lists. -/
def Context.merge_update (ctx : Context)
    (sources : List (List (String × PyV))) (overwrite : Bool) :
    Except PErr Context :=
  match sources with
  | [] => .ok ctx
  | d :: rest =>
    match _merge ctx.data d overwrite with
    | .error e => .error e
    | .ok data' =>
      Context.merge_update { ctx with data := data' } rest overwrite

/-! ## Stage-Expansion Driver (`parsing/__init__.py`) -/

def STAGES_KWD : String := "stages"

def SET_KWD : String := "set"

def FOREACH_KWD : String := "foreach"

def IN_KWD : String := "in"

def USE_KWD : String := "use"

def VARS_KWD : String := "vars"

def WDIR_KWD : String := "wdir"

def PARAMS_KWD : String := "params"

/-- Modelled from the spec: `DEFAULT_PARAMS_FILE` is
`ParamsDependency.DEFAULT_PARAMS_FILE`, whose defining module is not under
`src/`; the spec's provenance examples name the conventional default
parameters file `params.yaml`. -/
def DEFAULT_PARAMS_FILE : String := "params.yaml"

/-- `PathInfo` joining `a / b`, modelled on plain path strings. -/
def joinPath (a b : String) : String := a ++ "/" ++ b

/-- `DataResolver` state after `__init__`: the file-loading capability
(`repo.tree` with `os.path.exists`, as one partial map from path to parsed
mapping), the document's directory, the bootstrapped global context and
its source, and the document. -/
structure DataResolver where
  tree : String → Option (List (String × PyV))
  yaml_wdir : String
  global_ctx : Context
  global_ctx_source : Option String
  data : List (String × PyV)

/-- `DataResolver.__init__`: locate the default-parameters file (declared
`use`, else the conventional name) relative to the document directory;
if it exists load it as the global context (remembering the source),
otherwise start empty; then merge the inline `vars` mapping with overwrite
disabled.  A non-string `use` and a non-mapping `vars` (which would crash
the source) are not modelled. -/
def DataResolver.init (tree : String → Option (List (String × PyV)))
    (yaml_wdir : String) (d : List (String × PyV)) :
    Except PErr DataResolver :=
  let use := match alookup d USE_KWD with
    | some (.prim (.str u)) => u
    | _ => DEFAULT_PARAMS_FILE
  let to_import := joinPath yaml_wdir use
  let vars_ := match alookup d VARS_KWD with
    | some (.dict xs) => xs
    | _ => []
  let gpair : Context × Option String :=
    match tree to_import with
    | some m => (Context.load_from to_import m, some to_import)
    | none => ({}, none)
  match Context.merge_update gpair.1 [vars_] false with
  | .error e => .error e
  | .ok gctx =>
    .ok { tree := tree, yaml_wdir := yaml_wdir, global_ctx := gctx,
          global_ctx_source := gpair.2, data := d }

/-- `DataResolver._set_context_from`: resolve each binding's value in the
context (unwrap disabled) and assign it into the context. -/
def _set_context_from (ctx : Context) (to_set : List (String × PyV)) :
    Except PErr Context :=
  match to_set with
  | [] => .ok ctx
  | (key, nameV) :: rest =>
    match resolveV ctx false nameV with
    | .error e => .error e
    | .ok (value, ctx') => _set_context_from (ctx'.setItem key value) rest

/-- Python truthiness of the values a `wdir` field can hold (`Value` nodes
have no length and are always truthy; containers are falsy when empty). -/
def pyFalsy : PyV → Bool
  | .prim .null => true
  | .prim (.bool false) => true
  | .prim (.int 0) => true
  | .prim (.str "") => true
  | .list [] => true
  | .dict [] => true
  | .ctxList [] _ => true
  | .ctxDict [] _ => true
  | _ => false

/-- `DataResolver._resolve_wdir`: a missing or falsy `wdir` keeps the
document directory; otherwise the field is resolved and its string form
joined onto the document directory. -/
def DataResolver._resolve_wdir (R : DataResolver) (ctx : Context)
    (wdir : Option PyV) : Except PErr (String × Context) :=
  match wdir with
  | none => .ok (R.yaml_wdir, ctx)
  | some w =>
    if pyFalsy w then .ok (R.yaml_wdir, ctx)
    else
      match resolveV ctx false w with
      | .error e => .error e
      | .ok (w', ctx') => .ok (joinPath R.yaml_wdir w'.pyStr, ctx')

/-- The loop over a stage's `params` field in `_resolve_stage`: every
truthy dict item contributes a context loaded from its first key joined
onto the stage's working directory (the loader raises when the file is
missing — the source checks no existence here). -/
def stageParamsContexts (R : DataResolver) (wdir : String) :
    List PyV → Except PErr (List Context)
  | [] => .ok []
  | .dict ((k, _) :: _) :: rest =>
    let file := joinPath wdir k
    match R.tree file with
    | none => .error (.notFound file)
    | some m =>
      match stageParamsContexts R wdir rest with
      | .error e => .error e
      | .ok cs => .ok (Context.load_from file m :: cs)
  | _ :: rest => stageParamsContexts R wdir rest

/-- The parameter contexts a stage merges, in order: the conventional
parameters file next to the stage's working directory unless it already
supplied the global context, then one context per file named by a dict
item of the stage's `params` field. -/
def stageLocalContexts (R : DataResolver) (wdir : String)
    (definition : List (String × PyV)) : Except PErr (List Context) :=
  let params_yaml_file := joinPath wdir DEFAULT_PARAMS_FILE
  let contexts₀ : List Context :=
    if R.global_ctx_source ≠ some params_yaml_file then
      match R.tree params_yaml_file with
      | some m => [Context.load_from params_yaml_file m]
      | none => []
    else []
  let paramsItems := match alookup definition PARAMS_KWD with
    | some (.list xs) => xs
    | _ => []
  match stageParamsContexts R wdir paramsItems with
  | .error e => .error e
  | .ok contexts₁ => .ok (contexts₀ ++ contexts₁)

/-- Modelled from the spec: the source appends `context.tracked` onto the
stage's `params` list; per spec section 6 the emitted entries are one
mapping `source-file` to the list of dotted keys per tracked file. -/
def trackedEntries (td : List (String × List String)) : List PyV :=
  td.map (fun e => .dict [(e.1, .list (e.2.map (fun k => PyV.prim (.str k))))])

/-- `stage_d.get(PARAMS_KWD, [])` (a resolved non-list `params`, which
would crash the source's concatenation, is not modelled). -/
def paramsOf : Option PyV → List PyV
  | some (.list xs) => xs
  | _ => []

/-- `DataResolver._resolve_stage`: pop the `set` block and apply it; fix
the working directory; collect the stage-local parameter contexts (the
conventional file next to `wdir` unless it supplied the global context,
plus every file named by a dict item of the stage's `params`); merge them
with overwrite disabled; resolve the whole definition with tracking
active; append the tracked reads onto the params list, which is only
stored back when non-empty. -/
def DataResolver._resolve_stage (R : DataResolver) (ctx₀ : Context)
    (name : String) (definition₀ : List (String × PyV)) :
    Except PErr (List (String × PyV)) :=
  let setBlk := match alookup definition₀ SET_KWD with
    | some (.dict xs) => xs
    | _ => []
  let definition := adel definition₀ SET_KWD
  match _set_context_from ctx₀ setBlk with
  | .error e => .error e
  | .ok ctx₁ =>
  match R._resolve_wdir ctx₁ (alookup definition WDIR_KWD) with
  | .error e => .error e
  | .ok (wdir, ctx₂) =>
    match stageLocalContexts R wdir definition with
    | .error e => .error e
    | .ok contexts =>
    match ctx₂.merge_update (contexts.map Context.data) false with
    | .error e => .error e
    | .ok ctx₃ =>
      let tr := ctx₃.track (fun c =>
        match resolveV c true (.dict definition) with
        | .error e => (.error e, c)
        | .ok (v, c') => (.ok v, c'))
      match tr.1 with
      | .error e => .error e
      | .ok stage_d_v =>
        let stage_d := stage_d_v.entries
        let params :=
          paramsOf (alookup stage_d PARAMS_KWD) ++
            trackedEntries tr.2.trackedData
        let stage_d' :=
          if params.isEmpty then stage_d
          else aset stage_d PARAMS_KWD (.list params)
        .ok [(name, .dict stage_d')]

/-- `each_iter` inside `DataResolver._foreach`: clone the per-entry
context, bind `item` (and `key` for a mapping iteration), suffix the stage
name with the stringified key or value, and resolve the `in` block as that
iteration's definition. -/
def DataResolver.each_iter (R : DataResolver) (context : Context)
    (name : String) (in_data : List (String × PyV)) (value : PyV)
    (key : Option String) : Except PErr (List (String × PyV)) :=
  let c := Context.clone context
  let c := c.setItem "item" value
  let c := match key with
    | some k => c.setItem "key" (.prim (.str k))
    | none => c
  let suffix := match key with
    | some k => k
    | none => value.pyStr
  R._resolve_stage c (name ++ "-" ++ suffix) in_data

/-- The sequence branch of `_foreach`: one iteration per element, results
concatenated in order. -/
def DataResolver.foreachSeq (R : DataResolver) (context : Context)
    (name : String) (in_data : List (String × PyV)) :
    List PyV → Except PErr (List (String × PyV))
  | [] => .ok []
  | v :: rest =>
    match R.each_iter context name in_data v none with
    | .error e => .error e
    | .ok s =>
      match R.foreachSeq context name in_data rest with
      | .error e => .error e
      | .ok ss => .ok (s ++ ss)

/-- The mapping branch of `_foreach`: one iteration per entry in order,
binding both `item` and `key`. -/
def DataResolver.foreachMap (R : DataResolver) (context : Context)
    (name : String) (in_data : List (String × PyV)) :
    List (String × PyV) → Except PErr (List (String × PyV))
  | [] => .ok []
  | (k, v) :: rest =>
    match R.each_iter context name in_data v (some k) with
    | .error e => .error e
    | .ok s =>
      match R.foreachMap context name in_data rest with
      | .error e => .error e
      | .ok ss => .ok (s ++ ss)

/-- `DataResolver._foreach`: resolve the `foreach` expression; a sequence
(raw list or selected `CtxList` node) iterates elementwise, a mapping (raw
dict or selected `CtxDict` node) iterates per entry, anything else is a
type error. -/
def DataResolver._foreach (R : DataResolver) (ctx : Context)
    (name : String) (foreach_data : PyV) (in_data : List (String × PyV)) :
    Except PErr (List (String × PyV)) :=
  match resolveV ctx false foreach_data with
  | .error e => .error e
  | .ok (iterable, ctx') =>
    match iterable with
    | .list xs => R.foreachSeq ctx' name in_data xs
    | .ctxList xs _ => R.foreachSeq ctx' name in_data xs
    | .dict xs => R.foreachMap ctx' name in_data xs
    | .ctxDict xs _ => R.foreachMap ctx' name in_data xs
    | _ => .error (.typeErr "foreach data")

/-- `DataResolver._resolve_entry`: clone the global context, apply the
entry's `set` block, then dispatch: `foreach` without `in` is a definition
error, `foreach` with `in` expands, otherwise the entry is a concrete
stage.  (A non-mapping entry or `in` block, which would crash the source,
is a type error here.) -/
def DataResolver._resolve_entry (R : DataResolver) (name : String)
    (defn : PyV) : Except PErr (List (String × PyV)) :=
  match defn with
  | .dict definition =>
    let ctx := Context.clone R.global_ctx
    let setBlk := match alookup definition SET_KWD with
      | some (.dict xs) => xs
      | _ => []
    match _set_context_from ctx setBlk with
    | .error e => .error e
    | .ok ctx' =>
      if ahas definition FOREACH_KWD then
        if ahas definition IN_KWD then
          match alookup definition FOREACH_KWD,
              alookup definition IN_KWD with
          | some fd, some (.dict ind) => R._foreach ctx' name fd ind
          | some _, some _ => .error (.typeErr "in block must be a mapping")
          | _, _ => .error (.definitionErr "unreachable")
        else .error (.definitionErr "foreach needs a in")
      else R._resolve_stage ctx' name definition
  | _ => .error (.typeErr "stage definition must be a mapping")

/-- The `starmap` / `join` loop of `DataResolver.resolve` over the
document's stage entries (generated names are distinct, so `funcy.join`
on the result dicts is concatenation). -/
def resolveStagesList (R : DataResolver) :
    List (String × PyV) → Except PErr (List (String × PyV))
  | [] => .ok []
  | (name, defn) :: rest =>
    match R._resolve_entry name defn with
    | .error e => .error e
    | .ok s =>
      match resolveStagesList R rest with
      | .error e => .error e
      | .ok ss => .ok (s ++ ss)

/-- `DataResolver.resolve`: resolve every stage entry in document order and
return a mapping holding only the `stages` key. -/
def DataResolver.resolve (R : DataResolver) :
    Except PErr (List (String × PyV)) :=
  let stages := match alookup R.data STAGES_KWD with
    | some (.dict xs) => xs
    | _ => []
  match resolveStagesList R stages with
  | .error e => .error e
  | .ok data => .ok [(STAGES_KWD, .dict data)]

end Dvc

namespace Dvc

/-! ## Specification-side definitions used to state the claims -/

/-- Specification-side splice: the literal text before each token, then
the token's (already stringified) value, then the rest, ending with the
literal tail — the order the claim prescribes. -/
def spliceSpec (s : String) : List IMatch → List String → Nat → String
  | [], _, i => strFrom s i
  | _ :: _, [], i => strFrom s i
  | m :: ms, v :: vs, i =>
    strSlice s i m.start ++ (v ++ spliceSpec s ms vs m.stop)

/-- Select every token's inner path in order and stringify the selected
node, threading the context (selection tracks). -/
def selectPyStrs (ctx : Context) :
    List IMatch → Except PErr (List String × Context)
  | [] => .ok ([], ctx)
  | m :: ms =>
    match ctx.select m.inner false with
    | .error e => .error e
    | .ok (n, ctx') =>
      match selectPyStrs ctx' ms with
      | .error e => .error e
      | .ok (vs, ctx'') => .ok (n.pyStr :: vs, ctx'')

/-- A shared concrete context for witnesses: a `params.yaml` holding a
boolean, a number, a nested mapping and a list. -/
def ctxW : Context :=
  Context.load_from "params.yaml"
    [("flag", .prim (.bool true)), ("n", .prim (.int 5)),
     ("model", .dict [("lr", .prim (.int 3))]),
     ("lst", .list [.prim (.int 10), .prim (.int 20)])]

/-! ## Helper lemmas -/

theorem interpGo_eq_splice (s : String) :
    ∀ (ms : List IMatch) (i : Nat) (buf : String) (ctx : Context),
    interpGo s ms i buf ctx =
      (selectPyStrs ctx ms).map
        (fun vc => (buf ++ spliceSpec s ms vc.1 i, vc.2)) := by
  intro ms
  induction ms with
  | nil =>
    intro i buf ctx
    simp [interpGo, selectPyStrs, spliceSpec, Except.map]
  | cons m ms ih =>
    intro i buf ctx
    simp only [interpGo, selectPyStrs]
    cases hsel : Context.select ctx m.inner false with
    | error e => simp [hsel, Except.map]
    | ok p =>
      obtain ⟨n, ctx'⟩ := p
      simp only [hsel]
      rw [ih]
      cases h2 : selectPyStrs ctx' ms with
      | error e => simp [h2, Except.map]
      | ok vc =>
        simp [h2, Except.map, spliceSpec, String.append_assoc]

theorem select_unwrap_eq (ctx : Context) (key : String) :
    ctx.select key true =
      (ctx.select key false).map (fun p => (Context._unwrap p.1, p.2)) := by
  unfold Context.select
  cases h1 : (PyV.ctxDict ctx.data ctx.meta).selectSegs (splitDot key) with
  | error e => simp [h1, Except.map]
  | ok node =>
    cases h2 : ctx._track_data node with
    | error e => simp [h1, h2, Except.map]
    | ok ctx' => simp [h1, h2, Except.map]

/-! ## Claim C1 -/

/-- C1: a string that is exactly one interpolation token resolves (with
unwrapping, the context-side default) to the selected node's native value
— a boxed scalar is unwrapped to the bare scalar, a container stays the
container, nothing is stringified; a string mixing tokens with literal
text resolves to the string obtained by stringifying each token's
selected value and splicing it into the literal text in order (with
escaped brace-opens unescaped afterwards). -/
theorem C1_exact_native_mixed_spliced :
    (∀ (ctx : Context) (s : String) (m : IMatch) (n : PyV) (ctx' : Context),
      _get_matches s = [m] → s = m.matched →
      ctx.select m.inner false = .ok (n, ctx') →
      ctx.format_string s true = .ok (Context._unwrap n, ctx')) ∧
    (∀ (ctx : Context) (s : String) (vs : List String) (ctx' : Context),
      _is_exact_string s (_get_matches s) = false →
      selectPyStrs ctx (_get_matches s) = .ok (vs, ctx') →
      ctx.format_string s true =
        .ok (.prim (.str
          (pyUnescape (spliceSpec s (_get_matches s) vs 0))), ctx')) := by
  constructor
  · intro ctx s m n ctx' h1 h2 h3
    have hex : _is_exact_string s [m] = true := by
      simp [_is_exact_string, h2]
    unfold Context.format_string
    simp only [h1, hex, if_true]
    rw [select_unwrap_eq, h3]
    rfl
  · intro ctx s vs ctx' h1 h2
    unfold Context.format_string
    simp only [h1, Bool.false_eq_true, if_false]
    unfold Context._interpolate_string
    rw [interpGo_eq_splice, h2]
    simp [Except.map, String.empty_append]

/-- C1 witness: in a context binding `flag` to boolean true and `n` to the
number 5, the exact string resolves to the boolean itself, and the mixed
string resolves to the spliced text. -/
theorem C1_exact_native_mixed_spliced_witness :
    ctxW.format_string "$\x7bflag\x7d" true =
      .ok (.prim (.bool true), ctxW) ∧
    ctxW.format_string "$\x7bn\x7d days" true =
      .ok (.prim (.str "5 days"), ctxW) := by
  constructor
  · exact C1_exact_native_mixed_spliced.1 ctxW "$\x7bflag\x7d"
      { start := 0, stop := 7, matched := "$\x7bflag\x7d", inner := "flag" }
      (.value (.bool true) { source := some "params.yaml", dpaths := ["flag"] })
      ctxW rfl rfl rfl
  · exact C1_exact_native_mixed_spliced.2 ctxW "$\x7bn\x7d days" ["5"] ctxW
      rfl rfl

end Dvc

namespace Dvc

/-! ## Claim C2 -/

/-- A context loaded from a file, for exercising `clone`. -/
def ctxC2 : Context :=
  Context.load_from "params.yaml" [("lr", .prim (.int 1))]

/-- C2 counterexample: cloning a context loaded from `params.yaml` yields a
node that still carries the source file and the dotted path `lr` — `clone`
passes deep-copied nodes through `_convert` unchanged, so provenance *is*
carried over, contradicting the claim that no node in the clone carries
the source file or dotted path. -/
theorem C2_counterexample :
    (Context.clone ctxC2).data =
      [("lr", PyV.value (.int 1)
        { source := some "params.yaml", dpaths := ["lr"] })] ∧
    ({ source := some "params.yaml", dpaths := ["lr"] } : Meta).source ≠
      none :=
  ⟨rfl, by simp⟩

theorem convertWith_node (m : Meta) (n : PyV) (h : n.isNode = true) :
    convertWith m n = n := by
  cases n with
  | prim p => simp [PyV.isNode] at h
  | list xs => simp [PyV.isNode] at h
  | dict xs => simp [PyV.isNode] at h
  | value p mm => rfl
  | ctxList d mm => rfl
  | ctxDict d mm => rfl
  | strN t v => rfl

theorem alookup_map_convert (xs : List (String × PyV)) (k : String)
    (n : PyV) (h1 : alookup xs k = some n) (h2 : n.isNode = true) :
    alookup
      (xs.map (fun kv => (kv.1, Container._convert ({} : Meta) kv.1 kv.2)))
      k = some n := by
  induction xs with
  | nil => simp [alookup] at h1
  | cons hd tl ih =>
    obtain ⟨k', v⟩ := hd
    by_cases hk : k' = k
    · subst hk
      simp [alookup] at h1
      subst h1
      simp [List.map_cons, alookup]
      exact convertWith_node _ _ h2
    · simp only [alookup, if_neg hk] at h1
      simp only [List.map_cons, alookup, if_neg hk]
      exact ih h1

/-- C2 amended: `clone` deep-copies the node entries and re-inserts them
through `_convert`, which passes existing nodes through unchanged — so
every node of the clone keeps its original Meta (source file and dotted
path); what is fresh in a clone is only the root meta and the tracking
state. -/
theorem C2_clone_passes_nodes_through (ctx : Context) (k : String)
    (n : PyV) (h1 : alookup ctx.data k = some n) (h2 : n.isNode = true) :
    alookup (Context.clone ctx).data k = some n ∧
    (Context.clone ctx).meta = ({} : Meta) ∧
    (Context.clone ctx).trackFlag = false ∧
    (Context.clone ctx).trackedData = [] :=
  ⟨alookup_map_convert ctx.data k n h1 h2, rfl, rfl, rfl⟩

/-- C2 witness: the `lr` node of the loaded context survives cloning with
its provenance intact. -/
theorem C2_clone_passes_nodes_through_witness :
    alookup (Context.clone ctxC2).data "lr" =
      some (PyV.value (.int 1)
        { source := some "params.yaml", dpaths := ["lr"] }) ∧
    (Context.clone ctxC2).meta = ({} : Meta) ∧
    (Context.clone ctxC2).trackFlag = false ∧
    (Context.clone ctxC2).trackedData = [] :=
  C2_clone_passes_nodes_through ctxC2 "lr"
    (PyV.value (.int 1) { source := some "params.yaml", dpaths := ["lr"] })
    rfl rfl

/-! ## Claim C5 -/

/-- C5: with overwrite disabled, a key bound in both sides whose two
values are not both mappings raises the conflict error; with overwrite
enabled the update's value wins; when both values are mappings they are
merged recursively instead of replaced. -/
theorem C5_merge_conflict_overwrite_recursive :
    (∀ (into : List (String × PyV)) (k : String) (v w : PyV),
      alookup into k = some w →
      (w.isMapping && v.isMapping) = false →
      _merge into [(k, v)] false = .error (.mergeConflict k)) ∧
    (∀ (into : List (String × PyV)) (k : String) (v w : PyV),
      alookup into k = some w →
      (w.isMapping && v.isMapping) = false →
      _merge into [(k, v)] true = .ok (aset into k v)) ∧
    (∀ (into : List (String × PyV)) (k : String)
      (ys : List (String × PyV)) (mm : Meta) (w : PyV) (ow : Bool),
      alookup into k = some w → w.isMapping = true →
      _merge into [(k, .ctxDict ys mm)] ow =
        match _merge w.entries ys ow with
        | .error e => .error e
        | .ok m => .ok (aset into k (w.withEntries m))) := by
  refine ⟨?_, ?_, ?_⟩
  · intro into k v w h1 h2
    have step : mergeOne into k v false = .error (.mergeConflict k) := by
      unfold mergeOne
      cases v with
      | dict ys =>
        have hw : w.isMapping = false := by
          cases hb : w.isMapping
          · rfl
          · rw [hb] at h2
            simp [PyV.isMapping] at h2
        rw [h1]
        simp [hw]
      | ctxDict ys mm =>
        have hw : w.isMapping = false := by
          cases hb : w.isMapping
          · rfl
          · rw [hb] at h2
            simp [PyV.isMapping] at h2
        rw [h1]
        simp [hw]
      | prim p => rw [h1]; rfl
      | list xs => rw [h1]; rfl
      | value p mm => rw [h1]; rfl
      | ctxList xs mm => rw [h1]; rfl
      | strN t vv => rw [h1]; rfl
    unfold _merge
    rw [step]
  · intro into k v w h1 h2
    have step : mergeOne into k v true = .ok (aset into k v) := by
      unfold mergeOne
      cases v with
      | dict ys =>
        have hw : w.isMapping = false := by
          cases hb : w.isMapping
          · rfl
          · rw [hb] at h2
            simp [PyV.isMapping] at h2
        rw [h1]
        simp [hw]
      | ctxDict ys mm =>
        have hw : w.isMapping = false := by
          cases hb : w.isMapping
          · rfl
          · rw [hb] at h2
            simp [PyV.isMapping] at h2
        rw [h1]
        simp [hw]
      | prim p => rw [h1]; rfl
      | list xs => rw [h1]; rfl
      | value p mm => rw [h1]; rfl
      | ctxList xs mm => rw [h1]; rfl
      | strN t vv => rw [h1]; rfl
    unfold _merge
    rw [step]
    rfl
  · intro into k ys mm w ow h1 h2
    have step : mergeOne into k (.ctxDict ys mm) ow =
        (match _merge w.entries ys ow with
        | .error e => .error e
        | .ok m => .ok (aset into k (w.withEntries m))) := by
      unfold mergeOne
      rw [h1]
      simp [h2]
    cases hm : _merge w.entries ys ow with
    | error e =>
      unfold _merge
      rw [step, hm]
    | ok m =>
      unfold _merge
      rw [step, hm]
      rfl

/-- C5 witness: two scalar bindings of `lr` conflict without overwrite and
the later wins with overwrite; two nested `model` mappings merge
recursively. -/
theorem C5_merge_conflict_overwrite_recursive_witness :
    _merge [("lr", PyV.value (.int 1) {})] [("lr", PyV.value (.int 2) {})]
      false = .error (.mergeConflict "lr") ∧
    _merge [("lr", PyV.value (.int 1) {})] [("lr", PyV.value (.int 2) {})]
      true = .ok [("lr", PyV.value (.int 2) {})] ∧
    _merge [("model", PyV.ctxDict [("a", PyV.value (.int 1) {})] {})]
      [("model", PyV.ctxDict [("b", PyV.value (.int 2) {})] {})] false =
      .ok [("model", PyV.ctxDict
        [("a", PyV.value (.int 1) {}), ("b", PyV.value (.int 2) {})] {})] := by
  refine ⟨?_, ?_, ?_⟩
  · exact C5_merge_conflict_overwrite_recursive.1
      [("lr", PyV.value (.int 1) {})] "lr" (PyV.value (.int 2) {})
      (PyV.value (.int 1) {}) rfl rfl
  · exact C5_merge_conflict_overwrite_recursive.2.1
      [("lr", PyV.value (.int 1) {})] "lr" (PyV.value (.int 2) {})
      (PyV.value (.int 1) {}) rfl rfl
  · exact C5_merge_conflict_overwrite_recursive.2.2
      [("model", PyV.ctxDict [("a", PyV.value (.int 1) {})] {})] "model"
      [("b", PyV.value (.int 2) {})] {}
      (PyV.ctxDict [("a", PyV.value (.int 1) {})] {}) false rfl rfl

end Dvc

namespace Dvc

/-! ## Claim C7 -/

/-- A tracked scope whose body raises: selecting an undeclared variable
propagates the not-found error out of the scope. -/
def trackBodyC7 (c : Context) : Except PErr PyV × Context :=
  match c.select "missing" false with
  | .error e => (.error e, c)
  | .ok (n, c') => (.ok n, c')

/-- C7 (documenting the divergence): the `@contextmanager` body of
`track()` has no `try`/`finally`, so when the scope is exited by a raised
exception the deactivating assignment is skipped — the flag is still set
afterwards, and a select performed after the scope still contributes to
the tracked-paths accumulator, contrary to the claim. -/
theorem C7_track_leaks_on_exception :
    (ctxW.track trackBodyC7).1 =
      (.error (.notFound "missing") : Except PErr PyV) ∧
    (ctxW.track trackBodyC7).2.trackFlag = true ∧
    ((ctxW.track trackBodyC7).2.select "flag" false).map
      (fun p => p.2.trackedData) = .ok [("params.yaml", ["flag"])] :=
  ⟨rfl, rfl, rfl⟩

/-! ## Claims C9 and C10: tracking provenance -/

theorem track_data_ctxList (ctx : Context) (xs : List PyV) (m : Meta)
    (s : String) (hf : ctx.trackFlag = true) (hs : m.source = some s)
    (hne : s ≠ "") :
    ctx._track_data (.ctxList xs m) =
      .ok { ctx with
        trackedData := trackedInsert ctx.trackedData s m.path } := by
  unfold Context._track_data
  rw [hf]
  simp [PyV.get_sources, trackSources, hs, hne]

theorem track_data_value (ctx : Context) (p : Prim) (m : Meta)
    (s : String) (hf : ctx.trackFlag = true) (hs : m.source = some s)
    (hne : s ≠ "") :
    ctx._track_data (.value p m) =
      .ok { ctx with
        trackedData := trackedInsert ctx.trackedData s m.path } := by
  unfold Context._track_data
  rw [hf]
  simp [PyV.get_sources, trackSources, hs, hne]

theorem track_data_ctxDict (ctx : Context) (xs : List (String × PyV))
    (m : Meta) : ctx._track_data (.ctxDict xs m) = .ok ctx := by
  obtain ⟨d, mm, tf, td⟩ := ctx
  unfold Context._track_data
  cases tf <;> simp [PyV.get_sources, trackSources]

/-- A successful unwrap-free select performed its tracking through
`_track_data` on the selected node. -/
theorem select_ok_track (ctx : Context) (key : String) (node : PyV)
    (ctx' : Context) (h : ctx.select key false = .ok (node, ctx')) :
    ctx._track_data node = .ok ctx' := by
  unfold Context.select at h
  cases h1 : (PyV.ctxDict ctx.data ctx.meta).selectSegs (splitDot key) with
  | error e => rw [h1] at h; simp at h
  | ok n0 =>
    rw [h1] at h
    simp only [] at h
    cases h2 : ctx._track_data n0 with
    | error e => rw [h2] at h; simp at h
    | ok c2 =>
      rw [h2] at h
      simp at h
      obtain ⟨hn, hc⟩ := h
      subst hn
      subst hc
      exact h2

/-- C9: while tracking is active, a select that lands on a sequence
container records that container's own source and dotted path; one that
lands on a mapping container records nothing (the context is unchanged);
one that lands on a scalar `Value` records that value's own source and
dotted path. -/
theorem C9_provenance_by_node_kind :
    (∀ (ctx ctx' : Context) (key : String) (xs : List PyV) (m : Meta)
      (s : String),
      ctx.trackFlag = true → m.source = some s → s ≠ "" →
      ctx.select key false = .ok (.ctxList xs m, ctx') →
      ctx'.trackedData = trackedInsert ctx.trackedData s m.path) ∧
    (∀ (ctx ctx' : Context) (key : String) (xs : List (String × PyV))
      (m : Meta),
      ctx.select key false = .ok (.ctxDict xs m, ctx') →
      ctx'.trackedData = ctx.trackedData) ∧
    (∀ (ctx ctx' : Context) (key : String) (p : Prim) (m : Meta)
      (s : String),
      ctx.trackFlag = true → m.source = some s → s ≠ "" →
      ctx.select key false = .ok (.value p m, ctx') →
      ctx'.trackedData = trackedInsert ctx.trackedData s m.path) := by
  refine ⟨?_, ?_, ?_⟩
  · intro ctx ctx' key xs m s hf hs hne hsel
    have ht := select_ok_track ctx key _ ctx' hsel
    rw [track_data_ctxList ctx xs m s hf hs hne] at ht
    have := Except.ok.inj ht
    rw [← this]
  · intro ctx ctx' key xs m hsel
    have ht := select_ok_track ctx key _ ctx' hsel
    rw [track_data_ctxDict ctx xs m] at ht
    have := Except.ok.inj ht
    rw [← this]
  · intro ctx ctx' key p m s hf hs hne hsel
    have ht := select_ok_track ctx key _ ctx' hsel
    rw [track_data_value ctx p m s hf hs hne] at ht
    have := Except.ok.inj ht
    rw [← this]

end Dvc

namespace Dvc

/-- The witness context with tracking activated. -/
def ctxWT : Context := { ctxW with trackFlag := true }

/-- Meta of the `lst` node in the witness context. -/
def lstMeta : Meta := { source := some "params.yaml", dpaths := ["lst"] }

/-- The elements of the `lst` node in the witness context. -/
def lstItems : List PyV :=
  [.value (.int 10) { source := some "params.yaml", dpaths := ["lst", "0"] },
   .value (.int 20) { source := some "params.yaml", dpaths := ["lst", "1"] }]

/-- Meta of the `model` node in the witness context. -/
def modelMeta : Meta := { source := some "params.yaml", dpaths := ["model"] }

/-- The entries of the `model` node in the witness context. -/
def modelItems : List (String × PyV) :=
  [("lr", .value (.int 3)
    { source := some "params.yaml", dpaths := ["model", "lr"] })]

/-- Meta of the `flag` node in the witness context. -/
def flagMeta : Meta := { source := some "params.yaml", dpaths := ["flag"] }

/-- C9 witness: selecting the list `lst` records the list's own path,
selecting the mapping `model` records nothing, selecting the scalar
`flag` records the scalar's path. -/
theorem C9_provenance_by_node_kind_witness :
    ({ ctxWT with trackedData := [("params.yaml", ["lst"])] } :
        Context).trackedData =
      trackedInsert ctxWT.trackedData "params.yaml" lstMeta.path ∧
    ctxWT.trackedData = ctxWT.trackedData ∧
    ({ ctxWT with trackedData := [("params.yaml", ["flag"])] } :
        Context).trackedData =
      trackedInsert ctxWT.trackedData "params.yaml" flagMeta.path := by
  refine ⟨?_, ?_, ?_⟩
  · exact C9_provenance_by_node_kind.1 ctxWT
      { ctxWT with trackedData := [("params.yaml", ["lst"])] } "lst"
      lstItems lstMeta "params.yaml" rfl rfl (by decide) rfl
  · exact C9_provenance_by_node_kind.2.1 ctxWT ctxWT "model"
      modelItems modelMeta rfl
  · exact C9_provenance_by_node_kind.2.2 ctxWT
      { ctxWT with trackedData := [("params.yaml", ["flag"])] } "flag"
      (.bool true) flagMeta "params.yaml" rfl rfl (by decide) rfl

/-! ## Claim C10 -/

/-- Whether the selected node's own Meta has no source file (only node
kinds that have a `get_sources` can qualify). -/
def sourcelessNode : PyV → Bool
  | .value _ m => m.source.isNone
  | .ctxList _ m => m.source.isNone
  | .ctxDict _ m => m.source.isNone
  | _ => false

theorem track_data_sourceless (ctx : Context) (node : PyV)
    (hs : sourcelessNode node = true) :
    ctx._track_data node = .ok ctx := by
  cases node with
  | value p m =>
    obtain ⟨d, mm, tf, td⟩ := ctx
    have hm : m.source = none := by
      simpa [sourcelessNode, Option.isNone_iff_eq_none] using hs
    unfold Context._track_data
    cases tf <;> simp [PyV.get_sources, trackSources, hm]
  | ctxList xs m =>
    obtain ⟨d, mm, tf, td⟩ := ctx
    have hm : m.source = none := by
      simpa [sourcelessNode, Option.isNone_iff_eq_none] using hs
    unfold Context._track_data
    cases tf <;> simp [PyV.get_sources, trackSources, hm]
  | ctxDict xs m => exact track_data_ctxDict ctx xs m
  | prim p => simp [sourcelessNode] at hs
  | list xs => simp [sourcelessNode] at hs
  | dict xs => simp [sourcelessNode] at hs
  | strN t v => simp [sourcelessNode] at hs

/-- C10: tracking never records provenance for a node whose Meta has no
source file — `_track_data` leaves the context unchanged on such a node
(whatever the tracking flag), so a select that lands on one leaves the
tracked-paths accumulator exactly as it was. -/
theorem C10_sourceless_never_tracked :
    (∀ (ctx : Context) (node : PyV), sourcelessNode node = true →
      ctx._track_data node = .ok ctx) ∧
    (∀ (ctx ctx' : Context) (key : String) (node : PyV),
      ctx.select key false = .ok (node, ctx') →
      sourcelessNode node = true →
      ctx'.trackedData = ctx.trackedData) := by
  constructor
  · exact track_data_sourceless
  · intro ctx ctx' key node hsel hs
    have ht := select_ok_track ctx key node ctx' hsel
    rw [track_data_sourceless ctx node hs] at ht
    have := Except.ok.inj ht
    rw [this]

/-- A context holding only a locally-set value, whose Meta has no source,
with tracking active. -/
def ctxC10 : Context :=
  { (({} : Context).setItem "x" (.prim (.int 1))) with trackFlag := true }

/-- C10 witness: the locally-set `x` (default Meta, no source) contributes
nothing to the accumulator even with tracking active. -/
theorem C10_sourceless_never_tracked_witness :
    ctxC10._track_data
      (.value (.int 1) { source := none, dpaths := ["x"] }) = .ok ctxC10 ∧
    ctxC10.trackedData = ctxC10.trackedData := by
  constructor
  · exact C10_sourceless_never_tracked.1 ctxC10
      (.value (.int 1) { source := none, dpaths := ["x"] }) rfl
  · exact C10_sourceless_never_tracked.2 ctxC10 ctxC10 "x"
      (.value (.int 1) { source := none, dpaths := ["x"] }) rfl rfl

end Dvc

namespace Dvc

/-! ## Claim C8 -/

/-- C8 counterexample: the operational tokenizer `KEYCRE` has no bracket
in its inner character class, so a bracketed accessor is not recognized as
a token at all: the string resolves to itself as literal text with no
selection and no rewriting — contradicting the claim that `a[0]` is
recognized and rewritten to `a.0`. -/
theorem C8_counterexample :
    _get_matches "$\x7ba[0]\x7d" = [] ∧
    ctxW.format_string "$\x7ba[0]\x7d" true =
      .ok (.prim (.str "$\x7ba[0]\x7d"), ctxW) :=
  ⟨rfl, rfl⟩

theorem trySingle_inner_chars (cs : List Char) (inn : String) (len : Nat)
    (h : trySingleBrace cs = some (inn, len)) :
    ∀ c ∈ inn.toList, isInnerChar c = true := by
  unfold trySingleBrace at h
  split at h
  · split at h
    · simp only [Option.some.injEq, Prod.mk.injEq] at h
      obtain ⟨hinn, _⟩ := h
      intro c hc
      rw [← hinn] at hc
      exact List.mem_takeWhile_imp hc
    · simp at h
  · simp at h

theorem tryBraces_inner_chars (cs : List Char) (inn : String) (len : Nat)
    (h : tryBraces cs = some (inn, len)) :
    ∀ c ∈ inn.toList, isInnerChar c = true := by
  unfold tryBraces at h
  split at h
  · split at h
    · simp only [Option.some.injEq, Prod.mk.injEq] at h
      obtain ⟨hinn, _⟩ := h
      intro c hc
      rw [← hinn] at hc
      exact List.mem_takeWhile_imp hc
    · exact trySingle_inner_chars _ inn len h
  · exact trySingle_inner_chars _ inn len h

theorem scan_inner_chars (cs : List Char) :
    ∀ (prev : Option Char) (pos : Nat) (m : IMatch),
      m ∈ scanTokens cs prev pos →
      ∀ c ∈ m.inner.toList, isInnerChar c = true := by
  induction cs with
  | nil => intro prev pos m hm; simp [scanTokens] at hm
  | cons c rest ih =>
    intro prev pos m hm
    unfold scanTokens at hm
    by_cases hc : c = '$' ∧ prev ≠ some '\\'
    · rw [if_pos hc] at hm
      cases ht : tryBraces rest with
      | none => rw [ht] at hm; exact ih _ _ m hm
      | some p =>
        obtain ⟨inn, len⟩ := p
        rw [ht] at hm
        simp only [List.mem_cons] at hm
        cases hm with
        | inl he =>
          subst he
          exact tryBraces_inner_chars rest inn len ht
        | inr hmem => exact ih _ _ m hmem
    · rw [if_neg hc] at hm
      exact ih _ _ m hm

/-- C8 amended: the tokenizer's inner grammar admits no brackets — no
recognized token's inner expression contains a bracket (a string such as
a dollar-brace around `a[0]` yields no token and is left as literal
text, see the counterexample) — while index access written in the dotted
form `a.0` selects the list element by integer-casting the segment. -/
theorem C8_no_bracket_tokens_dotted_index_works :
    (∀ (s : String) (m : IMatch), m ∈ _get_matches s →
      '[' ∉ m.inner.toList ∧ ']' ∉ m.inner.toList) ∧
    (∀ (data : List (String × PyV)) (mm : Meta) (xs : List PyV) (m : Meta)
      (n : PyV), alookup data "a" = some (.ctxList xs m) →
      xs.get? 0 = some n →
      (PyV.ctxDict data mm).selectSegs (splitDot "a.0") = .ok n) := by
  constructor
  · intro s m hm
    constructor
    · intro hmem
      have := scan_inner_chars s.toList none 0 m hm '[' hmem
      simp [isInnerChar] at this
    · intro hmem
      have := scan_inner_chars s.toList none 0 m hm ']' hmem
      simp [isInnerChar] at this
  · intro data mm xs m n h1 h2
    have hidx : PyV.selectSegs.pyIndexGet xs 0 = xs.get? 0 := by
      unfold PyV.selectSegs.pyIndexGet
      norm_num
    have hfin : ∀ v : PyV, v.selectSegs [] = .ok v := fun v => by
      cases v <;> rfl
    rw [show splitDot "a.0" = ["a", "0"] from rfl]
    unfold PyV.selectSegs
    simp only [show pyStrip "a" = "a" from rfl, h1]
    unfold PyV.selectSegs
    simp only [show pyStrip "0" = "0" from rfl,
      show pyInt? "0" = some (0 : Int) from rfl, hidx, h2, hfin]

/-- The one token of the dotted witness string. -/
def mC8 : IMatch :=
  { start := 0, stop := 6, matched := "$\x7ba.b\x7d", inner := "a.b" }

/-- C8 witness: the inner expression of the one token of a dotted string
contains no bracket, and `a.0` selects the first list element. -/
theorem C8_no_bracket_tokens_dotted_index_works_witness :
    ('[' ∉ mC8.inner.toList ∧ ']' ∉ mC8.inner.toList) ∧
    (PyV.ctxDict [("a", .ctxList [.value (.int 7) {}] {})] {}).selectSegs
      (splitDot "a.0") = .ok (.value (.int 7) {}) := by
  constructor
  · exact C8_no_bracket_tokens_dotted_index_works.1 "$\x7ba.b\x7d" mC8
      (by decide)
  · exact C8_no_bracket_tokens_dotted_index_works.2
      [("a", .ctxList [.value (.int 7) {}] {})] {}
      [.value (.int 7) {}] {} (.value (.int 7) {}) rfl rfl

end Dvc

namespace Dvc

/-! ## Claim C4 -/

theorem foreachSeq_cons (R : DataResolver) (c : Context) (name : String)
    (inD : List (String × PyV)) (v : PyV) (rest : List PyV) :
    R.foreachSeq c name inD (v :: rest) =
      (match R.each_iter c name inD v none with
      | .error e => .error e
      | .ok s =>
        match R.foreachSeq c name inD rest with
        | .error e => .error e
        | .ok ss => .ok (s ++ ss)) := rfl

theorem foreachSeq_nil (R : DataResolver) (c : Context) (name : String)
    (inD : List (String × PyV)) : R.foreachSeq c name inD [] = .ok [] := rfl

theorem foreachMap_cons (R : DataResolver) (c : Context) (name : String)
    (inD : List (String × PyV)) (k : String) (v : PyV)
    (rest : List (String × PyV)) :
    R.foreachMap c name inD ((k, v) :: rest) =
      (match R.each_iter c name inD v (some k) with
      | .error e => .error e
      | .ok s =>
        match R.foreachMap c name inD rest with
        | .error e => .error e
        | .ok ss => .ok (s ++ ss)) := rfl

theorem foreachMap_nil (R : DataResolver) (c : Context) (name : String)
    (inD : List (String × PyV)) : R.foreachMap c name inD [] = .ok [] := rfl

/-- C4: a `foreach` over the sequence 1, 2, 3 under base name `train`
expands to exactly the stages `train-1`, `train-2`, `train-3` in order,
each resolved against its own clone of the entry context carrying only
its own `item` binding (so nothing leaks between iterations); a `foreach`
over the mapping a to 1, b to 2 expands to `train-a` and `train-b`, each
iteration's clone binding both `item` and `key`. -/
theorem C4_foreach_expansion :
    (∀ (R : DataResolver) (ctx : Context) (inD : List (String × PyV)),
      R._foreach ctx "train"
        (.list [.prim (.int 1), .prim (.int 2), .prim (.int 3)]) inD =
        (match R._resolve_stage
            ((Context.clone ctx).setItem "item" (.prim (.int 1)))
            "train-1" inD with
        | .error e => .error e
        | .ok s1 =>
          match R._resolve_stage
              ((Context.clone ctx).setItem "item" (.prim (.int 2)))
              "train-2" inD with
          | .error e => .error e
          | .ok s2 =>
            match R._resolve_stage
                ((Context.clone ctx).setItem "item" (.prim (.int 3)))
                "train-3" inD with
            | .error e => .error e
            | .ok s3 => .ok (s1 ++ s2 ++ s3))) ∧
    (∀ (R : DataResolver) (ctx : Context) (inD : List (String × PyV)),
      R._foreach ctx "train"
        (.dict [("a", .prim (.int 1)), ("b", .prim (.int 2))]) inD =
        (match R._resolve_stage
            (((Context.clone ctx).setItem "item"
              (.prim (.int 1))).setItem "key" (.prim (.str "a")))
            "train-a" inD with
        | .error e => .error e
        | .ok s1 =>
          match R._resolve_stage
              (((Context.clone ctx).setItem "item"
                (.prim (.int 2))).setItem "key" (.prim (.str "b")))
              "train-b" inD with
          | .error e => .error e
          | .ok s2 => .ok (s1 ++ s2))) := by
  constructor
  · intro R ctx inD
    have h0 : resolveV ctx false
        (.list [.prim (.int 1), .prim (.int 2), .prim (.int 3)]) =
        .ok (.list [.prim (.int 1), .prim (.int 2), .prim (.int 3)],
          ctx) := rfl
    have e1 : R.each_iter ctx "train" inD (.prim (.int 1)) none =
        R._resolve_stage
          ((Context.clone ctx).setItem "item" (.prim (.int 1)))
          "train-1" inD := rfl
    have e2 : R.each_iter ctx "train" inD (.prim (.int 2)) none =
        R._resolve_stage
          ((Context.clone ctx).setItem "item" (.prim (.int 2)))
          "train-2" inD := rfl
    have e3 : R.each_iter ctx "train" inD (.prim (.int 3)) none =
        R._resolve_stage
          ((Context.clone ctx).setItem "item" (.prim (.int 3)))
          "train-3" inD := rfl
    unfold DataResolver._foreach
    simp only [h0]
    rw [foreachSeq_cons, e1]
    cases R._resolve_stage
        ((Context.clone ctx).setItem "item" (.prim (.int 1)))
        "train-1" inD with
    | error e => rfl
    | ok s1 =>
      dsimp only
      rw [foreachSeq_cons, e2]
      cases R._resolve_stage
          ((Context.clone ctx).setItem "item" (.prim (.int 2)))
          "train-2" inD with
      | error e => rfl
      | ok s2 =>
        dsimp only
        rw [foreachSeq_cons, e3]
        cases R._resolve_stage
            ((Context.clone ctx).setItem "item" (.prim (.int 3)))
            "train-3" inD with
        | error e => rfl
        | ok s3 =>
          dsimp only
          rw [foreachSeq_nil]
          simp [List.append_assoc]
  · intro R ctx inD
    have h0 : resolveV ctx false
        (.dict [("a", .prim (.int 1)), ("b", .prim (.int 2))]) =
        .ok (.dict [("a", .prim (.int 1)), ("b", .prim (.int 2))],
          ctx) := rfl
    have e1 : R.each_iter ctx "train" inD (.prim (.int 1)) (some "a") =
        R._resolve_stage
          (((Context.clone ctx).setItem "item"
            (.prim (.int 1))).setItem "key" (.prim (.str "a")))
          "train-a" inD := rfl
    have e2 : R.each_iter ctx "train" inD (.prim (.int 2)) (some "b") =
        R._resolve_stage
          (((Context.clone ctx).setItem "item"
            (.prim (.int 2))).setItem "key" (.prim (.str "b")))
          "train-b" inD := rfl
    unfold DataResolver._foreach
    simp only [h0]
    rw [foreachMap_cons, e1]
    cases R._resolve_stage
        (((Context.clone ctx).setItem "item"
          (.prim (.int 1))).setItem "key" (.prim (.str "a")))
        "train-a" inD with
    | error e => rfl
    | ok s1 =>
      dsimp only
      rw [foreachMap_cons, e2]
      cases R._resolve_stage
          (((Context.clone ctx).setItem "item"
            (.prim (.int 2))).setItem "key" (.prim (.str "b")))
          "train-b" inD with
      | error e => rfl
      | ok s2 =>
        dsimp only
        rw [foreachMap_nil]
        simp

end Dvc

namespace Dvc

/-! ## Token-free strings and documents (specification side, for the
idempotence claim) -/

/-- A string contains no interpolation token opener: no dollar sign
immediately followed by an opening brace. -/
def noDollarBrace : List Char → Bool
  | [] => true
  | [_] => true
  | c1 :: c2 :: rest =>
    if c1 = '$' ∧ c2 = '\x7b' then false
    else noDollarBrace (c2 :: rest)

mutual

/-- A raw document value containing no token opener in any string scalar
(namespace-tree nodes never occur in an input document). -/
def PyV.tokenFree : PyV → Bool
  | .prim (.str s) => noDollarBrace s.toList
  | .prim _ => true
  | .list xs => tokenFreeItems xs
  | .dict xs => tokenFreeEntries xs
  | _ => false

def tokenFreeItems : List PyV → Bool
  | [] => true
  | x :: xs => x.tokenFree && tokenFreeItems xs

def tokenFreeEntries : List (String × PyV) → Bool
  | [] => true
  | (_, v) :: xs => v.tokenFree && tokenFreeEntries xs

end

theorem noDollarBrace_tail (c : Char) (rest : List Char)
    (h : noDollarBrace (c :: rest) = true) :
    noDollarBrace rest = true := by
  cases rest with
  | nil => rfl
  | cons c2 rest' =>
    unfold noDollarBrace at h
    by_cases hp : c = '$' ∧ c2 = '\x7b'
    · rw [if_pos hp] at h
      exact absurd h (by simp)
    · rw [if_neg hp] at h
      exact h

theorem noDollarBrace_head (c2 : Char) (rest : List Char)
    (h : noDollarBrace ('$' :: c2 :: rest) = true) : c2 ≠ '\x7b' := by
  intro he
  subst he
  unfold noDollarBrace at h
  rw [if_pos ⟨rfl, rfl⟩] at h
  exact absurd h (by simp)

theorem trySingle_none_of_ne (c2 : Char) (rest : List Char)
    (h : c2 ≠ '\x7b') : trySingleBrace (c2 :: rest) = none := by
  unfold trySingleBrace
  split
  · next heq => exact absurd (List.head_eq_of_cons_eq heq) h
  · rfl

theorem tryBraces_none_of_ne (c2 : Char) (rest : List Char)
    (h : c2 ≠ '\x7b') : tryBraces (c2 :: rest) = none := by
  unfold tryBraces
  split
  · next heq => exact absurd (List.head_eq_of_cons_eq heq) h
  · exact trySingle_none_of_ne c2 rest h

theorem scanTokens_nil_of_noTok (cs : List Char) :
    ∀ (prev : Option Char) (pos : Nat), noDollarBrace cs = true →
      scanTokens cs prev pos = [] := by
  induction cs with
  | nil => intro prev pos h; rfl
  | cons c rest ih =>
    intro prev pos h
    have htail := noDollarBrace_tail c rest h
    unfold scanTokens
    by_cases hc : c = '$' ∧ prev ≠ some '\\'
    · rw [if_pos hc]
      have hnone : tryBraces rest = none := by
        cases rest with
        | nil => rfl
        | cons c2 rest' =>
          apply tryBraces_none_of_ne
          have hcd : c = '$' := hc.1
          subst hcd
          exact noDollarBrace_head c2 rest' h
      rw [hnone]
      exact ih _ _ htail
    · rw [if_neg hc]
      exact ih _ _ htail

theorem unescapeChars_id : ∀ (cs : List Char),
    noDollarBrace cs = true → unescapeChars cs = cs
  | [], _ => rfl
  | [c], _ => rfl
  | [c1, c2], _ => rfl
  | c1 :: c2 :: c3 :: rest, h => by
    unfold unescapeChars
    have hne : ¬(c1 = '\\' ∧ c2 = '$' ∧ c3 = '\x7b') := by
      rintro ⟨e1, e2, e3⟩
      subst e1; subst e2; subst e3
      have h2 := noDollarBrace_tail _ _ h
      unfold noDollarBrace at h2
      rw [if_pos ⟨rfl, rfl⟩] at h2
      exact absurd h2 (by simp)
    rw [if_neg hne]
    have htail := noDollarBrace_tail _ _ h
    rw [unescapeChars_id (c2 :: c3 :: rest) htail]

theorem strFrom_zero (s : String) : strFrom s 0 = s := by
  cases s
  rfl

theorem mk_toList (s : String) : String.mk s.toList = s := by
  cases s
  rfl

theorem pyUnescape_id (s : String) (h : noDollarBrace s.toList = true) :
    pyUnescape s = s := by
  unfold pyUnescape
  rw [unescapeChars_id s.toList h]
  exact mk_toList s

/-- Resolving a token-free string produces the very same string (its match
list is empty, it is not exact, its splice is itself, the unescape is the
identity), with the context untouched. -/
theorem resolve_str_tokenFree (ctx : Context) (s : String)
    (h : noDollarBrace s.toList = true) :
    _resolve_str ctx s true = .ok (.prim (.str s), ctx) := by
  have hm : _get_matches s = [] := scanTokens_nil_of_noTok s.toList none 0 h
  have hi : ctx._interpolate_string s = .ok (s, ctx) := by
    unfold Context._interpolate_string
    rw [hm]
    unfold interpGo
    simp [strFrom_zero, String.empty_append]
  unfold _resolve_str mkStringNode
  simp only [hm, hi]
  simp [_is_exact_string, interpolateUnwrap, pyUnescape_id s h]

end Dvc

namespace Dvc

mutual

/-- Resolving (with unwrapping, as the stage driver does) any token-free
raw value returns it unchanged and leaves the context untouched. -/
theorem resolveV_tokenFree : ∀ (ctx : Context) (v : PyV),
    v.tokenFree = true → resolveV ctx true v = .ok (v, ctx)
  | ctx, .prim (.str s), h => by
    have hs : noDollarBrace s.toList = true := by
      simpa [PyV.tokenFree] using h
    show _resolve_str ctx s true = .ok (.prim (.str s), ctx)
    exact resolve_str_tokenFree ctx s hs
  | _, .prim .null, _ => rfl
  | _, .prim (.bool b), _ => rfl
  | _, .prim (.int n), _ => rfl
  | ctx, .list xs, h => by
    have hx : tokenFreeItems xs = true := by
      simpa [PyV.tokenFree] using h
    show (match resolveItems ctx true xs with
      | Except.error e => Except.error e
      | Except.ok (ys, ctx') => Except.ok (PyV.list ys, ctx')) =
      Except.ok (PyV.list xs, ctx)
    rw [resolveItems_tokenFree ctx xs hx]
  | ctx, .dict xs, h => by
    have hx : tokenFreeEntries xs = true := by
      simpa [PyV.tokenFree] using h
    show (match resolveEntries ctx true xs with
      | Except.error e => Except.error e
      | Except.ok (ys, ctx') => Except.ok (PyV.dict ys, ctx')) =
      Except.ok (PyV.dict xs, ctx)
    rw [resolveEntries_tokenFree ctx xs hx]
  | _, .value p m, h => by simp [PyV.tokenFree] at h
  | _, .ctxList xs m, h => by simp [PyV.tokenFree] at h
  | _, .ctxDict xs m, h => by simp [PyV.tokenFree] at h
  | _, .strN t v, h => by simp [PyV.tokenFree] at h

theorem resolveItems_tokenFree : ∀ (ctx : Context) (xs : List PyV),
    tokenFreeItems xs = true → resolveItems ctx true xs = .ok (xs, ctx)
  | _, [], _ => rfl
  | ctx, x :: xs, h => by
    have h1 : x.tokenFree = true ∧ tokenFreeItems xs = true := by
      simpa [tokenFreeItems, Bool.and_eq_true] using h
    show (match resolveV ctx true x with
      | Except.error e => Except.error e
      | Except.ok (v', ctx') =>
        match resolveItems ctx' true xs with
        | Except.error e => Except.error e
        | Except.ok (xs', ctx'') => Except.ok (v' :: xs', ctx'')) =
      Except.ok (x :: xs, ctx)
    rw [resolveV_tokenFree ctx x h1.1]
    simp only []
    rw [resolveItems_tokenFree ctx xs h1.2]

theorem resolveEntries_tokenFree : ∀ (ctx : Context)
    (xs : List (String × PyV)), tokenFreeEntries xs = true →
    resolveEntries ctx true xs = .ok (xs, ctx)
  | _, [], _ => rfl
  | ctx, (k, v) :: xs, h => by
    have h1 : v.tokenFree = true ∧ tokenFreeEntries xs = true := by
      simpa [tokenFreeEntries, Bool.and_eq_true] using h
    show (match resolveV ctx true v with
      | Except.error e => Except.error e
      | Except.ok (v', ctx') =>
        match resolveEntries ctx' true xs with
        | Except.error e => Except.error e
        | Except.ok (xs', ctx'') => Except.ok ((k, v') :: xs', ctx'')) =
      Except.ok ((k, v) :: xs, ctx)
    rw [resolveV_tokenFree ctx v h1.1]
    simp only []
    rw [resolveEntries_tokenFree ctx xs h1.2]

end

end Dvc

namespace Dvc

/-! ## Claim C3 -/

theorem ahas_false {α : Type} (xs : List (String × α)) (k : String)
    (h : ahas xs k = false) : alookup xs k = none := by
  cases ho : alookup xs k with
  | none => rfl
  | some v => unfold ahas at h; rw [ho] at h; simp at h

theorem adel_not_has {α : Type} : ∀ (xs : List (String × α)) (k : String),
    ahas xs k = false → adel xs k = xs
  | [], _, _ => rfl
  | (k', v) :: rest, k, h => by
    unfold ahas alookup at h
    by_cases hk : k' = k
    · rw [if_pos hk] at h
      simp at h
    · rw [if_neg hk] at h
      unfold adel
      rw [if_neg hk]
      rw [adel_not_has rest k (by simpa [ahas] using h)]

theorem aset_same {α : Type} : ∀ (xs : List (String × α)) (k : String)
    (v : α), alookup xs k = some v → aset xs k v = xs
  | [], _, _, h => by simp [alookup] at h
  | (k', w) :: rest, k, v, h => by
    by_cases hk : k' = k
    · subst hk
      unfold alookup at h
      rw [if_pos rfl] at h
      simp only [Option.some.injEq] at h
      unfold aset
      rw [if_pos rfl, h]
    · unfold alookup at h
      rw [if_neg hk] at h
      unfold aset
      rw [if_neg hk, aset_same rest k v h]

/-- The token-free witness document with a single concrete stage. -/
def docC3 : List (String × PyV) :=
  [("stages", .dict [("train", .dict [("cmd", .prim (.str "echo hi"))])])]

/-- An empty file system: no file exists. -/
def treeEmpty : String → Option (List (String × PyV)) := fun _ => none

/-- C3 counterexample: resolving a token-free document returns the stage
definition *without* any `params` key — the `if params:` guard of the
source drops an empty params list instead of appending it, contradicting
the claimed appended empty `params` list. -/
theorem C3_counterexample :
    (DataResolver.init treeEmpty "." docC3).map DataResolver.resolve =
      .ok (.ok [("stages",
        .dict [("train", .dict [("cmd", .prim (.str "echo hi"))])])]) ∧
    alookup [("cmd", PyV.prim (.str "echo hi"))] PARAMS_KWD = none :=
  ⟨rfl, rfl⟩

/-- C3 amended: resolving a token-free plain stage definition (no `set`
block; its working-directory step and its parameter-file merges
succeeding without touching the context, and nothing tracked) emits the
definition completely unchanged — in particular no `params` key is added
when the stage declared none, and a declared `params` list is left
exactly as written. -/
theorem C3_tokenfree_stage_unchanged (R : DataResolver)
    (ctx ctx₂ : Context) (name wdir : String)
    (definition : List (String × PyV)) (cs : List Context)
    (htf : tokenFreeEntries definition = true)
    (hset : ahas definition SET_KWD = false)
    (hw : R._resolve_wdir ctx (alookup definition WDIR_KWD) =
      .ok (wdir, ctx))
    (hc : stageLocalContexts R wdir definition = .ok cs)
    (hm : ctx.merge_update (cs.map Context.data) false = .ok ctx₂)
    (htd : ctx₂.trackedData = []) :
    R._resolve_stage ctx name definition =
      .ok [(name, .dict definition)] := by
  have hlook : alookup definition SET_KWD = none := ahas_false _ _ hset
  have hdel : adel definition SET_KWD = definition :=
    adel_not_has _ _ hset
  have hres := resolveV_tokenFree
    { data := ctx₂.data, meta := ctx₂.meta, trackFlag := true,
      trackedData := [] }
    (.dict definition) (by simpa [PyV.tokenFree] using htf)
  cases hpar : alookup definition PARAMS_KWD with
  | none =>
    unfold DataResolver._resolve_stage
    simp [hlook, hdel, hw, hc, hm, hres, htd, hpar, _set_context_from,
      Context.track, PyV.entries, paramsOf, trackedEntries]
  | some pv =>
    cases pv with
    | list xs =>
      cases hxs : xs with
      | nil =>
        unfold DataResolver._resolve_stage
        simp [hlook, hdel, hw, hc, hm, hres, htd, hpar, hxs,
          _set_context_from, Context.track, PyV.entries, paramsOf,
          trackedEntries]
      | cons y ys =>
        have hsame : aset definition PARAMS_KWD (.list (y :: ys)) =
            definition := by
          apply aset_same
          rw [hpar, hxs]
        unfold DataResolver._resolve_stage
        simp [hlook, hdel, hw, hc, hm, hres, htd, hpar, hxs, hsame,
          _set_context_from, Context.track, PyV.entries, paramsOf,
          trackedEntries]
    | prim p =>
      unfold DataResolver._resolve_stage
      simp [hlook, hdel, hw, hc, hm, hres, htd, hpar, _set_context_from,
        Context.track, PyV.entries, paramsOf, trackedEntries]
    | dict xs =>
      unfold DataResolver._resolve_stage
      simp [hlook, hdel, hw, hc, hm, hres, htd, hpar, _set_context_from,
        Context.track, PyV.entries, paramsOf, trackedEntries]
    | value p m =>
      unfold DataResolver._resolve_stage
      simp [hlook, hdel, hw, hc, hm, hres, htd, hpar, _set_context_from,
        Context.track, PyV.entries, paramsOf, trackedEntries]
    | ctxList xs m =>
      unfold DataResolver._resolve_stage
      simp [hlook, hdel, hw, hc, hm, hres, htd, hpar, _set_context_from,
        Context.track, PyV.entries, paramsOf, trackedEntries]
    | ctxDict xs m =>
      unfold DataResolver._resolve_stage
      simp [hlook, hdel, hw, hc, hm, hres, htd, hpar, _set_context_from,
        Context.track, PyV.entries, paramsOf, trackedEntries]
    | strN t v =>
      unfold DataResolver._resolve_stage
      simp [hlook, hdel, hw, hc, hm, hres, htd, hpar, _set_context_from,
        Context.track, PyV.entries, paramsOf, trackedEntries]

/-- The bootstrapped resolver of the token-free witness document. -/
def RC3 : DataResolver :=
  { tree := treeEmpty, yaml_wdir := ".", global_ctx := {},
    global_ctx_source := none, data := docC3 }

/-- C3 witness: the concrete token-free stage resolves to itself, with no
`params` key added. -/
theorem C3_tokenfree_stage_unchanged_witness :
    RC3._resolve_stage {} "train" [("cmd", .prim (.str "echo hi"))] =
      .ok [("train", .dict [("cmd", .prim (.str "echo hi"))])] :=
  C3_tokenfree_stage_unchanged RC3 {} {} "train" "."
    [("cmd", .prim (.str "echo hi"))] [] rfl rfl rfl rfl rfl rfl

end Dvc

namespace Dvc

/-! ## Claim C6 -/

/-- A witness document carrying a top-level `vars` key besides `stages`. -/
def docC6 : List (String × PyV) :=
  [("vars", .dict [("x", .prim (.int 1))]),
   ("stages", .dict [("train", .dict [("cmd", .prim (.str "echo"))])])]

/-- C6 counterexample: resolving a document that has a top-level `vars`
key returns a mapping holding only the `stages` key — `vars` does not
appear in the output, contradicting the claim that every other top-level
key appears unchanged. -/
theorem C6_counterexample :
    (DataResolver.init treeEmpty "." docC6).map DataResolver.resolve =
      .ok (.ok [("stages",
        .dict [("train", .dict [("cmd", .prim (.str "echo"))])])]) ∧
    alookup [("stages",
      PyV.dict [("train", PyV.dict [("cmd", PyV.prim (.str "echo"))])])]
      "vars" = none :=
  ⟨rfl, rfl⟩

/-- C6 amended: `resolve()` returns a mapping containing only the
`stages` key, bound to the flattened stage mapping; no other top-level
key of the input document (such as `vars` or `use`) is carried into the
output. -/
theorem C6_resolve_returns_only_stages (R : DataResolver)
    (out : List (String × PyV)) (h : R.resolve = .ok out) :
    (∃ d, out = [(STAGES_KWD, PyV.dict d)]) ∧
      ∀ k, k ≠ STAGES_KWD → alookup out k = none := by
  unfold DataResolver.resolve at h
  simp only [] at h
  cases hres : resolveStagesList R
      (match alookup R.data STAGES_KWD with
        | some (.dict xs) => xs
        | _ => []) with
  | error e =>
    rw [hres] at h
    simp at h
  | ok data =>
    rw [hres] at h
    simp only [Except.ok.injEq] at h
    constructor
    · exact ⟨data, h.symm⟩
    · intro k hk
      rw [← h]
      simp [alookup, Ne.symm hk]

/-- The bootstrapped resolver of the `vars`-carrying witness document. -/
def RC6 : DataResolver :=
  { tree := treeEmpty, yaml_wdir := ".",
    global_ctx := { data := [("x", .prim (.int 1))] },
    global_ctx_source := none, data := docC6 }

/-- The output of resolving the witness document. -/
def outC6 : List (String × PyV) :=
  [("stages", .dict [("train", .dict [("cmd", .prim (.str "echo"))])])]

/-- C6 witness: the concrete resolver's output consists of the `stages`
key alone, and in particular its `vars` key is gone. -/
theorem C6_resolve_returns_only_stages_witness :
    DataResolver.init treeEmpty "." docC6 = .ok RC6 ∧
    (∃ d, outC6 = [(STAGES_KWD, PyV.dict d)]) ∧
    alookup outC6 "vars" = none := by
  have h := C6_resolve_returns_only_stages RC6 outC6 rfl
  exact ⟨rfl, h.1, h.2 "vars" (by decide)⟩

end Dvc
